import Mathlib

/-!
# Verification of the LinkedIn outreach sequence engine

Shallow embedding of the core of the `linkedin-outreach-mcp` repository:
the quota tracker, message personalizer, step executor, due-enrollment
selection, enrollment creation, and the connection-sync reconciler, as
implemented in the runner script and in `src/db/schema.ts`.

Modelling conventions:
* ISO-8601 timestamp strings are modelled as natural numbers (milliseconds);
  SQLite datetime comparison on the normalized strings is order-isomorphic
  to `≤` on these numbers.
* Calendar dates (the `date` column of `rate_limits`) are modelled as natural
  numbers (days); the SQL comparison `date >= date('now','-7 days')` becomes
  `today ≤ date + 7`.
* JavaScript `x || y` on optional strings / numbers is modelled explicitly,
  since `undefined`, `""` and `0` are all falsy.
* Database tables are modelled as lists of rows; gateway calls are modelled
  as `Except`-valued oracles (an `Except.error` is a thrown exception).
-/

namespace Outreach

/-- JavaScript `x || y` for an optional string: `undefined` and `""` fall
back to the default. -/
def jsOrStr (x : Option String) (y : String) : String :=
  match x with
  | none => y
  | some s => if s = "" then y else s

/-- JavaScript truthiness of an optional number: `undefined` and `0` are falsy. -/
def jsTruthyNat (x : Option Nat) : Bool :=
  match x with
  | none => false
  | some n => n != 0

/-- JavaScript truthiness of an optional string: `undefined` and `""` are falsy. -/
def jsTruthyStr (x : Option String) : Bool :=
  match x with
  | none => false
  | some s => s != ""

/-- JavaScript `x || null` for an optional string (empty string becomes null),
as used when writing prospect columns. -/
def strOrNull (x : Option String) : Option String :=
  match x with
  | none => none
  | some s => if s = "" then none else some s

/-- JavaScript `x || null` for an optional number (`0` becomes null). -/
def natOrNull (x : Option Nat) : Option Nat :=
  match x with
  | none => none
  | some n => if n = 0 then none else some n

/-- Milliseconds in one day, `24 * 60 * 60 * 1000`. -/
def msPerDay : Nat := 24 * 60 * 60 * 1000

/-- Milliseconds in eight hours, `8 * 60 * 60 * 1000`: the re-check interval of
`wait_for_acceptance`. -/
def msEightHours : Nat := 8 * 60 * 60 * 1000

/-! ## Quota tracker (`RATE_LIMITS`, `rate_limits` table) -/

/-- The five rate-limited action types of `RATE_LIMITS` in the runner. -/
inductive ActionType
  | invitation
  | message
  | profile_view
  | post_action
  | inmail
deriving DecidableEq, Repr

/-- The string key under which an action type is stored in the
`rate_limits` table. -/
def ActionType.key : ActionType → String
  | .invitation => "invitation"
  | .message => "message"
  | .profile_view => "profile_view"
  | .post_action => "post_action"
  | .inmail => "inmail"

/-- Daily ceilings from `RATE_LIMITS`. -/
def dailyLimit : ActionType → Nat
  | .invitation => 40
  | .message => 80
  | .profile_view => 90
  | .post_action => 50
  | .inmail => 25

/-- Weekly ceiling: present only for `invitation` (`weekly: 180`);
`'weekly' in limits` is false for every other action type. -/
def weeklyLimit : ActionType → Option Nat
  | .invitation => some 180
  | _ => none

/-- One row of the `rate_limits` table: unique on `(action_type, date)`. -/
structure RateLimitRow where
  action_type : String
  date : Nat
  count : Nat
deriving DecidableEq, Repr

/-- `db.getRateLimitCount`: the count stored for `(actionType, date)`, or 0. -/
def getRateLimitCount (rl : List RateLimitRow) (a : String) (d : Nat) : Nat :=
  match rl.find? (fun r => r.action_type == a && r.date == d) with
  | some r => r.count
  | none => 0

/-- `db.incrementRateLimit`: upsert incrementing today's counter
(`ON CONFLICT(action_type, date) DO UPDATE SET count = count + 1`). -/
def incrementRateLimit (rl : List RateLimitRow) (a : String) (d : Nat) :
    List RateLimitRow :=
  if rl.any (fun r => r.action_type == a && r.date == d) then
    rl.map (fun r =>
      if r.action_type == a && r.date == d then
        { r with count := r.count + 1 }
      else r)
  else
    rl ++ [{ action_type := a, date := d, count := 1 }]

/-- `db.getWeeklyRateLimitCount`: `SELECT SUM(count) FROM rate_limits WHERE
action_type = ? AND date >= date('now', '-7 days')`.  The date filter
`date >= today - 7` is rendered subtraction-free as `today ≤ date + 7`. -/
def getWeeklyRateLimitCount (rl : List RateLimitRow) (a : String) (today : Nat) : Nat :=
  ((rl.filter (fun r => r.action_type == a && decide (today ≤ r.date + 7))).map
    (fun r => r.count)).sum

/-- Result shape of the runner's `checkRateLimit`. -/
structure LimitCheck where
  allowed : Bool
  current : Nat
  limit : Nat
  message : Option String := none
deriving DecidableEq, Repr

/-- The runner's `checkRateLimit`: daily ceiling first; for action types with a
weekly ceiling, the weekly ceiling is consulted only after the daily check
passes.  Pure: no counter is mutated. -/
def checkRateLimit (rl : List RateLimitRow) (today : Nat) (a : ActionType) :
    LimitCheck :=
  let dailyCount := getRateLimitCount rl a.key today
  if dailyCount ≥ dailyLimit a then
    { allowed := false, current := dailyCount, limit := dailyLimit a,
      message := some ("Daily limit reached for " ++ a.key ++ ": " ++
        toString dailyCount ++ "/" ++ toString (dailyLimit a)) }
  else
    match weeklyLimit a with
    | some w =>
      let weeklyCount := getWeeklyRateLimitCount rl a.key today
      if weeklyCount ≥ w then
        { allowed := false, current := weeklyCount, limit := w,
          message := some ("Weekly limit reached for " ++ a.key ++ ": " ++
            toString weeklyCount ++ "/" ++ toString w) }
      else
        { allowed := true, current := dailyCount, limit := dailyLimit a }
    | none =>
      { allowed := true, current := dailyCount, limit := dailyLimit a }

/-! ## Message personalizer (`personalizeMessage`) -/

/-- Fuelled global replacement on character lists: the semantics of
JavaScript `String.prototype.replace` with a global literal pattern.
Matches are found left to right, are non-overlapping, and replacement text is
never rescanned.  The fuel is instantiated with the length of the subject
string, which bounds the number of scanning steps. -/
def replaceAux (pat repl : List Char) : Nat → List Char → List Char
  | _, [] => []
  | 0, s => s
  | fuel + 1, c :: cs =>
    if !pat.isEmpty && pat.isPrefixOf (c :: cs) then
      repl ++ replaceAux pat repl fuel ((c :: cs).drop pat.length)
    else
      c :: replaceAux pat repl fuel cs

/-- `s.replace(/pat/g, repl)` for a literal pattern `pat`. -/
def replaceAllS (s pat repl : String) : String :=
  ⟨replaceAux pat.data repl.data s.data.length s.data⟩

/-- Scanner deciding whether the literal pattern `pat` matches anywhere in the
subject (the match test performed at each position of `replaceAux`). -/
def hasMatch (pat : List Char) : List Char → Bool
  | [] => false
  | c :: cs => (!pat.isEmpty && pat.isPrefixOf (c :: cs)) || hasMatch pat cs

/-- JavaScript `full_name.split(' ')[0]`: the prefix of the string up to the
first space character (the whole string when it contains no space). -/
def firstSpaceToken (s : String) : String :=
  ⟨s.data.takeWhile (fun c => c ≠ ' ')⟩

/-- The placeholder `{{first_name}}`. -/
def phFirstName : String := "\x7b\x7bfirst_name\x7d\x7d"

/-- The placeholder `{{last_name}}`. -/
def phLastName : String := "\x7b\x7blast_name\x7d\x7d"

/-- The placeholder `{{full_name}}`. -/
def phFullName : String := "\x7b\x7bfull_name\x7d\x7d"

/-- The placeholder `{{company}}`. -/
def phCompany : String := "\x7b\x7bcompany\x7d\x7d"

/-- The placeholder `{{headline}}`. -/
def phHeadline : String := "\x7b\x7bheadline\x7d\x7d"

/-! ## Store row types (`src/db/schema.ts`) -/

/-- A `Prospect` record (schema.ts).  Optional string columns that the code
writes as `value || null` are `Option String`; `is_connection` is the boolean
decoded from the 0/1 column. -/
structure Prospect where
  id : String
  linkedin_id : String
  public_identifier : Option String := none
  full_name : String
  first_name : Option String := none
  last_name : Option String := none
  headline : Option String := none
  company : Option String := none
  location : Option String := none
  profile_url : Option String := none
  picture_url : Option String := none
  connection_degree : Option Nat := none
  is_connection : Bool
  source_search : Option String := none
  tags : Option (List String) := none
  notes : Option String := none
  created_at : Nat
  updated_at : Nat
deriving DecidableEq, Repr

/-- The runner's `personalizeMessage`: five chained global replacements, in the
source order first name, last name, full name, company, headline, with the
JavaScript `||` fallbacks of the source. -/
def personalizeMessage (template : String) (p : Prospect) : String :=
  replaceAllS
    (replaceAllS
      (replaceAllS
        (replaceAllS
          (replaceAllS template phFirstName
            (jsOrStr p.first_name (firstSpaceToken p.full_name)))
          phLastName (jsOrStr p.last_name ""))
        phFullName p.full_name)
      phCompany (jsOrStr p.company "your company"))
    phHeadline (jsOrStr p.headline "")

/-- A `SequenceStep` (schema.ts): tagged by a string discriminator with
optional `delay_days`, `timeout_days` and `message` fields. -/
structure SequenceStep where
  type : String
  delay_days : Option Nat := none
  timeout_days : Option Nat := none
  message : Option String := none
deriving DecidableEq, Repr

/-- A `Sequence` (campaign) record (schema.ts). -/
structure Sequence where
  id : String
  name : String
  description : Option String := none
  status : String
  steps : List SequenceStep
  created_at : Nat
  updated_at : Nat
deriving DecidableEq, Repr

/-- Enrollment status values (the `status` column of `sequence_enrollments`). -/
inductive EnrollmentStatus
  | pending
  | in_progress
  | connected
  | replied
  | completed
  | failed
  | paused
deriving DecidableEq, Repr, BEq

/-- A `SequenceEnrollment` record (schema.ts). -/
structure SequenceEnrollment where
  id : String
  sequence_id : String
  prospect_id : String
  current_step : Nat
  status : EnrollmentStatus
  error_message : Option String := none
  last_action_at : Option Nat := none
  next_action_at : Option Nat := none
  created_at : Nat
  updated_at : Nat
deriving DecidableEq, Repr

/-- The update record accepted by `db.updateEnrollment`: a partial pick of
mutable columns; a `none` field was passed as `undefined` and is skipped by the
`!== undefined` guards, leaving the stored value untouched. -/
structure EnrollmentUpdate where
  current_step : Option Nat := none
  status : Option EnrollmentStatus := none
  error_message : Option String := none
  last_action_at : Option Nat := none
  next_action_at : Option Nat := none
deriving DecidableEq, Repr

/-- `db.updateEnrollment` applied to one row: only the fields present in the
update record are written; `updated_at` is always set to `datetime('now')`. -/
def updateEnrollment (e : SequenceEnrollment) (u : EnrollmentUpdate) (now : Nat) :
    SequenceEnrollment :=
  { e with
    current_step := u.current_step.getD e.current_step
    status := u.status.getD e.status
    error_message := match u.error_message with
      | some m => some m
      | none => e.error_message
    last_action_at := match u.last_action_at with
      | some t => some t
      | none => e.last_action_at
    next_action_at := match u.next_action_at with
      | some t => some t
      | none => e.next_action_at
    updated_at := now }

/-! ## Remote outreach gateway (`unipile-client.ts`), as consumed oracles

Each gateway operation either throws (`Except.error msg`, the message of the
thrown exception) or returns its typed response.  One `executeStep` run makes
at most one gateway call, so a `Gateway` value fixes the outcome of each
operation for the run under consideration. -/

/-- `SendInvitationResponse` of the Unipile client. -/
structure SendInvitationResponse where
  success : Bool
  invitation_id : Option String := none
  error : Option String := none
deriving DecidableEq, Repr

/-- `SendMessageResponse` of the Unipile client. -/
structure SendMessageResponse where
  success : Bool
  message_id : Option String := none
  chat_id : Option String := none
  error : Option String := none
deriving DecidableEq, Repr

/-- One entry of the gateway's relation list (`Relation`), restricted to the
fields the reconciler reads. -/
structure GwRelation where
  id : String
  provider_id : String
  public_identifier : String
  full_name : String
deriving DecidableEq, Repr

/-- `RelationsResponse` of the Unipile client. -/
structure RelationsResponse where
  items : List GwRelation
  has_more : Bool := false
deriving DecidableEq, Repr

/-- The gateway oracle: the outcome each remote operation would have if
invoked during the run under consideration.  The profile fetched by
`getProfile` is discarded by the executor, so its payload is `Unit`. -/
structure Gateway where
  getProfile : Except String Unit
  sendInvitation : Except String SendInvitationResponse
  sendMessage : Except String SendMessageResponse
  getRelations : Except String RelationsResponse
deriving Repr

/-! ## Step executor (`executeStep` in the runner) -/

/-- The `{ success, action, error? }` result of `executeStep`. -/
structure StepResult where
  success : Bool
  action : String
  error : Option String := none
deriving DecidableEq, Repr

/-- One `actions_log` row as appended by the executor (`db.logAction`);
`payload_message` is the `message` field of the JSON payload. -/
structure ActionLogEntry where
  enrollment_id : Option String := none
  prospect_id : Option String := none
  action_type : String
  step_index : Option Nat := none
  payload_message : Option String := none
  status : String
  error_message : Option String := none
deriving DecidableEq, Repr

/-- Everything one `executeStep` invocation produces: its result value, the
post-state of the enrollment row and of the `rate_limits` table, the appended
log entries, and the names of the gateway operations it invoked. -/
structure ExecOutcome where
  result : StepResult
  enrollment : SequenceEnrollment
  rateLimits : List RateLimitRow
  log : List ActionLogEntry := []
  calls : List String := []
deriving DecidableEq, Repr

/-- The runner's `executeStep`, for one enrollment with its sequence and
prospect.  `now` is `Date.now()` in milliseconds, `today` the calendar date
used by the quota tracker.  A thrown gateway exception is caught at the
per-step boundary and converted into a failure result (the source's
`try`/`catch`), leaving every table untouched, since all mutations of the
source occur after the awaited call resolves. -/
def executeStep (now today : Nat) (gw : Gateway) (e : SequenceEnrollment)
    (seq : Sequence) (p : Prospect) (rl : List RateLimitRow) : ExecOutcome :=
  match seq.steps[e.current_step]? with
  | none =>
    { result := { success := true, action := "completed" }
      enrollment := updateEnrollment e { status := some .completed } now
      rateLimits := rl }
  | some step =>
    if step.type = "visit_profile" then
      let limitCheck := checkRateLimit rl today .profile_view
      if !limitCheck.allowed then
        { result := { success := false, action := "visit_profile",
                      error := limitCheck.message }
          enrollment := e, rateLimits := rl }
      else
        match gw.getProfile with
        | .error msg =>
          { result := { success := false, action := step.type, error := some msg }
            enrollment := e, rateLimits := rl, calls := ["getProfile"] }
        | .ok _ =>
          let nextStep := e.current_step + 1
          { result := { success := true, action := "visit_profile" }
            enrollment := updateEnrollment e
              { current_step := some nextStep
                status := some .in_progress
                last_action_at := some now
                next_action_at := some (if jsTruthyNat step.delay_days then
                    now + (step.delay_days.getD 0) * msPerDay
                  else now) } now
            rateLimits := incrementRateLimit rl "profile_view" today
            log := [{ enrollment_id := some e.id, prospect_id := some p.id,
                      action_type := "profile_view",
                      step_index := some e.current_step, status := "success" }]
            calls := ["getProfile"] }
    else if step.type = "send_invitation" then
      let limitCheck := checkRateLimit rl today .invitation
      if !limitCheck.allowed then
        { result := { success := false, action := "send_invitation",
                      error := limitCheck.message }
          enrollment := e, rateLimits := rl }
      else
        let message := if jsTruthyStr step.message then
            some (personalizeMessage (step.message.getD "") p)
          else none
        match gw.sendInvitation with
        | .error msg =>
          { result := { success := false, action := step.type, error := some msg }
            enrollment := e, rateLimits := rl, calls := ["sendInvitation"] }
        | .ok result =>
          { result := { success := result.success, action := "send_invitation",
                        error := result.error }
            enrollment := if result.success then
                updateEnrollment e
                  { current_step := some (e.current_step + 1)
                    status := some .in_progress
                    last_action_at := some now
                    next_action_at := some (if jsTruthyNat step.delay_days then
                        now + (step.delay_days.getD 0) * msPerDay
                      else now) } now
              else e
            rateLimits := incrementRateLimit rl "invitation" today
            log := [{ enrollment_id := some e.id, prospect_id := some p.id,
                      action_type := "invitation_sent",
                      step_index := some e.current_step,
                      payload_message := message,
                      status := if result.success then "success" else "failed",
                      error_message := result.error }]
            calls := ["sendInvitation"] }
    else if step.type = "wait_for_acceptance" then
      if p.is_connection then
        { result := { success := true, action := "wait_for_acceptance (connected!)" }
          enrollment := updateEnrollment e
            { current_step := some (e.current_step + 1)
              status := some .connected
              last_action_at := some now } now
          rateLimits := rl }
      else
        let enrolledAt := e.created_at
        let timeoutMs := (if jsTruthyNat step.timeout_days then
            step.timeout_days.getD 0
          else 7) * msPerDay
        if now - enrolledAt > timeoutMs then
          { result := { success := false, action := "wait_for_acceptance",
                        error := some "Timeout" }
            enrollment := updateEnrollment e
              { status := some .failed
                error_message := some "Timeout waiting for acceptance" } now
            rateLimits := rl }
        else
          { result := { success := true,
                        action := "wait_for_acceptance (still waiting)" }
            enrollment := updateEnrollment e
              { next_action_at := some (now + msEightHours) } now
            rateLimits := rl }
    else if step.type = "send_message" ∨ step.type = "send_followup" then
      let limitCheck := checkRateLimit rl today .message
      if !limitCheck.allowed then
        { result := { success := false, action := step.type,
                      error := limitCheck.message }
          enrollment := e, rateLimits := rl }
      else if !p.is_connection then
        { result := { success := false, action := step.type,
                      error := some "Not connected yet" }
          enrollment := e, rateLimits := rl }
      else
        let message := personalizeMessage (jsOrStr step.message "Thanks for connecting!") p
        match gw.sendMessage with
        | .error msg =>
          { result := { success := false, action := step.type, error := some msg }
            enrollment := e, rateLimits := rl, calls := ["sendMessage"] }
        | .ok result =>
          { result := { success := result.success, action := step.type,
                        error := result.error }
            enrollment := if result.success then
                let nextStep := e.current_step + 1
                let isComplete := decide (seq.steps.length ≤ nextStep)
                updateEnrollment e
                  { current_step := some nextStep
                    status := some (if isComplete then .completed else .in_progress)
                    last_action_at := some now
                    next_action_at := if !isComplete && jsTruthyNat step.delay_days then
                        some (now + (step.delay_days.getD 0) * msPerDay)
                      else none } now
              else e
            rateLimits := incrementRateLimit rl "message" today
            log := [{ enrollment_id := some e.id, prospect_id := some p.id,
                      action_type := if step.type = "send_followup" then
                          "followup_sent"
                        else "message_sent",
                      step_index := some e.current_step,
                      payload_message := some message,
                      status := if result.success then "success" else "failed",
                      error_message := result.error }]
            calls := ["sendMessage"] }
    else if step.type = "delay" then
      { result := { success := true, action := "delay" }
        enrollment := updateEnrollment e
          { current_step := some (e.current_step + 1)
            next_action_at := some (if jsTruthyNat step.delay_days then
                now + (step.delay_days.getD 0) * msPerDay
              else now) } now
        rateLimits := rl }
    else
      { result := { success := false, action := "unknown",
                    error := some ("Unknown step type: " ++ step.type) }
        enrollment := e, rateLimits := rl }

/-! ## Enrollment queries (`getEnrollments`, `enrollProspect`) -/

/-- The due-selection status set of `getEnrollments`:
`status IN ('pending', 'in_progress', 'connected')`. -/
def dueStatus (s : EnrollmentStatus) : Bool :=
  s == .pending || s == .in_progress || s == .connected

/-- The `due_for_action` condition of `getEnrollments`:
`next_action_at <= datetime('now')` (false on a NULL column, as in SQL) and the
due-selection status set. -/
def dueForAction (now : Nat) (e : SequenceEnrollment) : Bool :=
  (match e.next_action_at with
   | some t => decide (t ≤ now)
   | none => false) && dueStatus e.status

/-- Comparison of enrollments by `next_action_at` (ascending; a NULL column
sorts first, as in SQLite `ORDER BY`). -/
def nextActionLe (a b : SequenceEnrollment) : Bool :=
  match a.next_action_at, b.next_action_at with
  | none, _ => true
  | some _, none => false
  | some x, some y => decide (x ≤ y)

/-- The `EnrollmentFilters` argument of `getEnrollments`. -/
structure EnrollmentFilters where
  sequence_id : Option String := none
  status : Option EnrollmentStatus := none
  due_for_action : Bool := false
  limit : Option Nat := none
deriving Repr

/-- `db.getEnrollments`: filter by the requested conditions, `ORDER BY
next_action_at ASC`, and apply `LIMIT` — which the source guards with the
truthiness check `if (filters.limit)`, so a limit of `0` applies no cap. -/
def getEnrollments (db : List SequenceEnrollment) (now : Nat)
    (filters : EnrollmentFilters) : List SequenceEnrollment :=
  let condFn : SequenceEnrollment → Bool := fun e =>
    (if jsTruthyStr filters.sequence_id then
        e.sequence_id == filters.sequence_id.getD ""
      else true) &&
    (match filters.status with
     | some st => e.status == st
     | none => true) &&
    (!filters.due_for_action || dueForAction now e)
  let sorted := List.insertionSort (fun a b => nextActionLe a b = true) (db.filter condFn)
  match filters.limit with
  | some l => if l != 0 then sorted.take l else sorted
  | none => sorted

/-- `db.enrollProspect`: `INSERT ... ON CONFLICT(sequence_id, prospect_id) DO
NOTHING RETURNING *`; when the insert is suppressed by the conflict, the
existing row is selected and returned.  `newId` is the generated UUID and
`now` the current timestamp; a missing `nextActionAt` defaults to `now`. -/
def enrollProspect (db : List SequenceEnrollment) (sequenceId prospectId : String)
    (nextActionAt : Option Nat) (newId : String) (now : Nat) :
    SequenceEnrollment × List SequenceEnrollment :=
  match db.find? (fun e => e.sequence_id == sequenceId && e.prospect_id == prospectId) with
  | some existing => (existing, db)
  | none =>
    let e : SequenceEnrollment :=
      { id := newId, sequence_id := sequenceId, prospect_id := prospectId,
        current_step := 0, status := .pending,
        next_action_at := some (nextActionAt.getD now),
        created_at := now, updated_at := now }
    (e, db ++ [e])

/-! ## Connection-sync reconciler (`checkNewConnections`,
`handleCheckNewConnections`) -/

/-- One row of the `known_connections` table. -/
structure KnownConnection where
  linkedin_id : String
  full_name : Option String := none
  connected_at : Nat
  synced_at : Nat
deriving DecidableEq, Repr

/-- The durable store visible to the reconciler. -/
structure Store where
  prospects : List Prospect
  enrollments : List SequenceEnrollment
  known_connections : List KnownConnection
deriving Repr

/-- `db.isKnownConnection`. -/
def isKnownConnection (ks : List KnownConnection) (lid : String) : Bool :=
  ks.any (fun k => k.linkedin_id == lid)

/-- `db.markAsKnownConnection`: insert, or on conflict refresh `synced_at`
only (the stored name is not overwritten). -/
def markAsKnownConnection (ks : List KnownConnection) (lid : String)
    (fullName : Option String) (now : Nat) : List KnownConnection :=
  if ks.any (fun k => k.linkedin_id == lid) then
    ks.map (fun k => if k.linkedin_id == lid then { k with synced_at := now } else k)
  else
    ks ++ [{ linkedin_id := lid, full_name := strOrNull fullName,
             connected_at := now, synced_at := now }]

/-- `db.getProspectByLinkedInId`. -/
def getProspectByLinkedInId (ps : List Prospect) (lid : String) : Option Prospect :=
  ps.find? (fun p => p.linkedin_id == lid)

/-- `db.saveProspect`: upsert by `linkedin_id`.  On conflict the display
columns and `is_connection` are overwritten (with the `|| null` write
normalization), while `id`, `created_at`, `source_search`, `tags` and `notes`
of the stored row are kept. -/
def saveProspect (ps : List Prospect) (p : Prospect) (now : Nat) : List Prospect :=
  if ps.any (fun q => q.linkedin_id == p.linkedin_id) then
    ps.map (fun q =>
      if q.linkedin_id == p.linkedin_id then
        { q with
          public_identifier := strOrNull p.public_identifier
          full_name := p.full_name
          first_name := strOrNull p.first_name
          last_name := strOrNull p.last_name
          headline := strOrNull p.headline
          company := strOrNull p.company
          location := strOrNull p.location
          profile_url := strOrNull p.profile_url
          picture_url := strOrNull p.picture_url
          connection_degree := natOrNull p.connection_degree
          is_connection := p.is_connection
          updated_at := now }
      else q)
  else
    ps ++ [{ p with created_at := now, updated_at := now }]

/-- `db.getEnrollmentByProspect` without a sequence filter:
`ORDER BY created_at DESC LIMIT 1`. -/
def getEnrollmentByProspect (db : List SequenceEnrollment) (pid : String) :
    Option SequenceEnrollment :=
  (List.insertionSort (fun a b => b.created_at ≥ a.created_at)
    (db.filter (fun e => e.prospect_id == pid))).head?

/-- `db.updateEnrollment` addressed by row id, applied to the table. -/
def updateEnrollmentById (db : List SequenceEnrollment) (id : String)
    (u : EnrollmentUpdate) (now : Nat) : List SequenceEnrollment :=
  db.map (fun e => if e.id == id then updateEnrollment e u now else e)

/-- Loop body of the runner's `checkNewConnections` for one relation:
skip known ids; otherwise mark known, count it, and when a matching prospect
exists flip its connection flag and promote an `in_progress` enrollment to
`connected`. -/
def processRelation (now : Nat) (st : Store) (n : Nat) (r : GwRelation) :
    Store × Nat :=
  if isKnownConnection st.known_connections r.provider_id then
    (st, n)
  else
    let ks := markAsKnownConnection st.known_connections r.provider_id
      (some r.full_name) now
    match getProspectByLinkedInId st.prospects r.provider_id with
    | none => ({ st with known_connections := ks }, n + 1)
    | some p =>
      let ps := saveProspect st.prospects { p with is_connection := true } now
      match getEnrollmentByProspect st.enrollments p.id with
      | some en =>
        if en.status == .in_progress then
          let es := updateEnrollmentById st.enrollments en.id
            { status := some .connected, last_action_at := some now } now
          ({ st with
              known_connections := ks
              prospects := ps
              enrollments := es }, n + 1)
        else
          ({ st with known_connections := ks, prospects := ps }, n + 1)
      | none => ({ st with known_connections := ks, prospects := ps }, n + 1)

/-- The runner's `checkNewConnections`: fetch the relation list; a thrown
gateway error is caught, logged, and reported as zero new connections with the
store untouched.  On success, fold the loop body over the items. -/
def checkNewConnections (gw : Gateway) (now : Nat) (st : Store) : Nat × Store :=
  match gw.getRelations with
  | .error _ => (0, st)
  | .ok rels =>
    let folded := rels.items.foldl
      (fun (acc : Store × Nat) r => processRelation now acc.1 acc.2 r) (st, 0)
    (folded.2, folded.1)

/-- One entry of the tool-facing reconciler's `new_connections` report. -/
structure NewConnectionEntry where
  name : String
  linkedin_id : String
  enrollment_updated : Bool := false
deriving DecidableEq, Repr

/-- Loop body of the tool-facing `handleCheckNewConnections` for one relation:
the same store mutations as the runner's loop, but accumulating report
entries instead of a counter. -/
def processRelationTool (now : Nat) (st : Store) (acc : List NewConnectionEntry)
    (r : GwRelation) : Store × List NewConnectionEntry :=
  if isKnownConnection st.known_connections r.provider_id then
    (st, acc)
  else
    let ks := markAsKnownConnection st.known_connections r.provider_id
      (some r.full_name) now
    match getProspectByLinkedInId st.prospects r.provider_id with
    | none =>
      ({ st with known_connections := ks },
       acc ++ [{ name := r.full_name, linkedin_id := r.provider_id }])
    | some p =>
      let ps := saveProspect st.prospects { p with is_connection := true } now
      match getEnrollmentByProspect st.enrollments p.id with
      | some en =>
        if en.status == .in_progress then
          let es := updateEnrollmentById st.enrollments en.id
            { status := some .connected, last_action_at := some now } now
          ({ st with
              known_connections := ks
              prospects := ps
              enrollments := es },
           acc ++ [{ name := r.full_name, linkedin_id := r.provider_id,
                     enrollment_updated := true }])
        else
          ({ st with known_connections := ks, prospects := ps },
           acc ++ [{ name := r.full_name, linkedin_id := r.provider_id }])
      | none =>
        ({ st with known_connections := ks, prospects := ps },
         acc ++ [{ name := r.full_name, linkedin_id := r.provider_id }])

/-- The tool-facing `handleCheckNewConnections` (index.ts): on success it
returns the count and list of new connections; a thrown gateway error is
caught and **re-thrown** wrapped as `Failed to check connections: ...`
(modelled as `Except.error`), propagating to the tool dispatcher. -/
def handleCheckNewConnections (gw : Gateway) (now : Nat) (st : Store) :
    Except String (Nat × List NewConnectionEntry) × Store :=
  match gw.getRelations with
  | .error msg => (.error ("Failed to check connections: " ++ msg), st)
  | .ok rels =>
    let folded := rels.items.foldl
      (fun (acc : Store × List NewConnectionEntry) r =>
        processRelationTool now acc.1 acc.2 r) (st, [])
    (.ok (folded.2.length, folded.2), folded.1)

/-! ## Helper lemmas -/

/-- A global literal replacement whose pattern matches nowhere in the subject
leaves the subject unchanged, for any fuel. -/
theorem replaceAux_eq_self (pat repl : List Char) (s : List Char)
    (h : hasMatch pat s = false) : ∀ fuel, replaceAux pat repl fuel s = s := by
  induction s with
  | nil => intro fuel; cases fuel <;> rfl
  | cons c cs ih =>
    have h' := h
    simp only [hasMatch, Bool.or_eq_false_iff] at h'
    intro fuel
    cases fuel with
    | zero => rfl
    | succ n =>
      simp only [replaceAux, h'.1, if_false, Bool.false_eq_true]
      exact congrArg (c :: ·) (ih h'.2 n)

/-- String-level version of `replaceAux_eq_self`. -/
theorem replaceAllS_eq_self (s pat repl : String)
    (h : hasMatch pat.data s.data = false) : replaceAllS s pat repl = s := by
  unfold replaceAllS
  rw [replaceAux_eq_self pat.data repl.data s.data h]

/-- A status in the due-selection set is none of the excluded statuses. -/
theorem dueStatus_elim (s : EnrollmentStatus) (h : dueStatus s = true) :
    s ≠ .completed ∧ s ≠ .failed ∧ s ≠ .paused ∧ s ≠ .replied := by
  cases s <;> revert h <;> decide

/-- `dueStatus` on the literal `pending`. -/
theorem dueStatus_pending : dueStatus .pending = true := rfl

/-- `dueStatus` on the literal `in_progress`. -/
theorem dueStatus_in_progress : dueStatus .in_progress = true := rfl

/-- `dueStatus` on the literal `connected`. -/
theorem dueStatus_connected : dueStatus .connected = true := rfl

/-- `dueStatus` on the literal `completed`. -/
theorem dueStatus_completed : dueStatus .completed = false := rfl

/-- `dueStatus` on the literal `failed`. -/
theorem dueStatus_failed : dueStatus .failed = false := rfl

/-- `nextActionLe` is total. -/
theorem nextActionLe_total (a b : SequenceEnrollment) :
    nextActionLe a b = true ∨ nextActionLe b a = true := by
  cases ha : a.next_action_at <;> cases hb : b.next_action_at <;>
    simp [nextActionLe, ha, hb] <;> omega

/-- `nextActionLe` is transitive. -/
theorem nextActionLe_trans (a b c : SequenceEnrollment)
    (hab : nextActionLe a b = true) (hbc : nextActionLe b c = true) :
    nextActionLe a c = true := by
  cases ha : a.next_action_at <;> cases hb : b.next_action_at <;>
    cases hc : c.next_action_at <;> simp_all [nextActionLe] <;> omega

/-! ## Shared concrete fixtures for witnesses and counterexamples -/

/-- A prospect with no stored first name and no company. -/
def adaProspect : Prospect :=
  { id := "p1", linkedin_id := "lid1", full_name := "Ada Lovelace",
    is_connection := false, created_at := 0, updated_at := 0 }

/-- The same prospect after connection. -/
def connectedProspect : Prospect :=
  { adaProspect with is_connection := true }

/-- A gateway whose every operation succeeds. -/
def gwOk : Gateway :=
  { getProfile := .ok (), sendInvitation := .ok { success := true },
    sendMessage := .ok { success := true },
    getRelations := .ok { items := [] } }

/-- A gateway whose invite call returns (does not throw) but reports failure. -/
def gwInvitationRejected : Gateway :=
  { gwOk with sendInvitation := .ok { success := false, error := some "rejected" } }

/-- A gateway whose relation listing throws. -/
def gwRelationsDown : Gateway :=
  { gwOk with getRelations := .error "boom" }

/-- A one-step campaign consisting of a single `send_invitation`. -/
def invitationSeq : Sequence :=
  { id := "s1", name := "c", status := "active",
    steps := [{ type := "send_invitation" }], created_at := 0, updated_at := 0 }

/-- A one-step campaign consisting of a single `send_message`. -/
def messageSeq : Sequence :=
  { id := "s2", name := "c", status := "active",
    steps := [{ type := "send_message", message := some "x" }],
    created_at := 0, updated_at := 0 }

/-- A one-step campaign consisting of a single `delay` of two days. -/
def delaySeq : Sequence :=
  { id := "s3", name := "c", status := "active",
    steps := [{ type := "delay", delay_days := some 2 }],
    created_at := 0, updated_at := 0 }

/-- A one-step campaign consisting of a single `wait_for_acceptance`. -/
def waitSeq : Sequence :=
  { id := "s4", name := "c", status := "active",
    steps := [{ type := "wait_for_acceptance" }], created_at := 0, updated_at := 0 }

/-- A pending enrollment at step 0, due since time 5. -/
def enr1 : SequenceEnrollment :=
  { id := "e1", sequence_id := "s1", prospect_id := "p1", current_step := 0,
    status := .pending, next_action_at := some 5, created_at := 0, updated_at := 0 }

/-- An empty durable store. -/
def emptyStore : Store :=
  { prospects := [], enrollments := [], known_connections := [] }

/-! ## C7 — enrollment uniqueness (first-write-wins) -/

/-- C7: enrolling the same prospect into the same campaign twice yields exactly
one enrollment record: the second `enrollProspect` call performs no insert and
no mutation of the store, and returns the record the first call returned,
unchanged — whatever id, timestamp and `nextActionAt` the second call is given. -/
theorem enrollProspect_idempotent (db : List SequenceEnrollment)
    (sid pid : String) (na1 : Option Nat) (id1 : String) (t1 : Nat)
    (na2 : Option Nat) (id2 : String) (t2 : Nat) :
    enrollProspect (enrollProspect db sid pid na1 id1 t1).2 sid pid na2 id2 t2
      = ((enrollProspect db sid pid na1 id1 t1).1,
         (enrollProspect db sid pid na1 id1 t1).2) := by
  unfold enrollProspect
  cases h : db.find? (fun e => e.sequence_id == sid && e.prospect_id == pid) with
  | some ex => simp [h]
  | none =>
    simp only [h]
    rw [List.find?_append, h]
    simp

/-! ## C8 — message personalizer -/

/-- The personalizer scenario template
`"Hi {{first_name}}, congrats on {{company}}!"`. -/
def adaTemplate : String :=
  "Hi \x7b\x7bfirst_name\x7d\x7d, congrats on \x7b\x7bcompany\x7d\x7d!"

/-- `t` contains none of the five recognized placeholders. -/
def noPlaceholders (t : String) : Bool :=
  !hasMatch phFirstName.data t.data && !hasMatch phLastName.data t.data &&
  !hasMatch phFullName.data t.data && !hasMatch phCompany.data t.data &&
  !hasMatch phHeadline.data t.data

/-- C8: the personalizer is a pure total function (it is a Lean function);
each recognized placeholder is replaced globally with its fallback value — in
particular the scenario template, for any prospect `p` with no explicit first
name, full name `"Ada Lovelace"` and no company, renders
`"Hi Ada, congrats on your company!"` (first name falls back to the first
space-delimited token of the full name, company to the generic phrase) — and
any template containing no recognized placeholder passes through unchanged,
for any prospect `q`. -/
theorem personalizeMessage_spec (p q : Prospect) (t : String)
    (h1 : p.first_name = none) (h2 : p.full_name = "Ada Lovelace")
    (h3 : p.company = none) (ht : noPlaceholders t = true) :
    personalizeMessage adaTemplate p = "Hi Ada, congrats on your company!" ∧
    personalizeMessage t q = t := by
  constructor
  · unfold personalizeMessage
    rw [h1, h2, h3]
    have e1 : replaceAllS adaTemplate phFirstName
        (jsOrStr none (firstSpaceToken "Ada Lovelace"))
        = "Hi Ada, congrats on \x7b\x7bcompany\x7d\x7d!" := by decide
    rw [e1]
    rw [replaceAllS_eq_self _ phLastName _ (by decide)]
    rw [replaceAllS_eq_self _ phFullName _ (by decide)]
    have e4 : replaceAllS "Hi Ada, congrats on \x7b\x7bcompany\x7d\x7d!"
        phCompany (jsOrStr none "your company")
        = "Hi Ada, congrats on your company!" := by decide
    rw [e4]
    exact replaceAllS_eq_self _ phHeadline _ (by decide)
  · simp only [noPlaceholders, Bool.and_eq_true, Bool.not_eq_true'] at ht
    obtain ⟨⟨⟨⟨hf, hl⟩, hn⟩, hc⟩, hh⟩ := ht
    unfold personalizeMessage
    rw [replaceAllS_eq_self _ phFirstName _ hf,
        replaceAllS_eq_self _ phLastName _ hl,
        replaceAllS_eq_self _ phFullName _ hn,
        replaceAllS_eq_self _ phCompany _ hc,
        replaceAllS_eq_self _ phHeadline _ hh]

/-- Witness for C8: the scenario prospect and the template
`"Hello {{foo}}"`, whose placeholder is unrecognized. -/
theorem personalizeMessage_spec_witness :
    personalizeMessage adaTemplate adaProspect = "Hi Ada, congrats on your company!" ∧
    personalizeMessage "Hello \x7b\x7bfoo\x7d\x7d" connectedProspect = "Hello \x7b\x7bfoo\x7d\x7d" :=
  personalizeMessage_spec adaProspect connectedProspect "Hello \x7b\x7bfoo\x7d\x7d"
    rfl rfl rfl (by decide)

/-! ## C10 — frame effect of the `delay` step -/

/-- Counterexample to C10 as stated: a `delay` step does not mutate *only*
`current_step` and `next_action_at` — `updateEnrollment` unconditionally
refreshes the `updated_at` bookkeeping column (`updated_at = datetime('now')`),
so after executing the delay step of `delaySeq` on `enr1` (whose `updated_at`
is 0) at time 99, `updated_at` differs from its previous value. -/
theorem delay_step_touches_updated_at :
    (executeStep 99 0 gwOk enr1 delaySeq adaProspect []).enrollment.updated_at
      ≠ enr1.updated_at := by decide

/-- C10 (amended): a `delay` step mutates only `current_step` (incremented by
exactly one), `next_action_at` (now plus `delay_days`, or now when falsy) and
the `updated_at` bookkeeping timestamp; `status`, `error_message` and
`last_action_at` are unchanged, no quota is touched and no gateway call is
made — in particular a `pending` enrollment stays `pending` and remains in the
due-selection status set. -/
theorem executeStep_delay_frame (now today : Nat) (gw : Gateway)
    (e : SequenceEnrollment) (seq : Sequence) (p : Prospect)
    (rl : List RateLimitRow) (step : SequenceStep)
    (hstep : seq.steps[e.current_step]? = some step)
    (htype : step.type = "delay") :
    (executeStep now today gw e seq p rl).enrollment.current_step = e.current_step + 1 ∧
    (executeStep now today gw e seq p rl).enrollment.next_action_at
      = some (if jsTruthyNat step.delay_days then
          now + (step.delay_days.getD 0) * msPerDay
        else now) ∧
    (executeStep now today gw e seq p rl).enrollment.status = e.status ∧
    (executeStep now today gw e seq p rl).enrollment.error_message = e.error_message ∧
    (executeStep now today gw e seq p rl).enrollment.last_action_at = e.last_action_at ∧
    (executeStep now today gw e seq p rl).enrollment.id = e.id ∧
    (executeStep now today gw e seq p rl).enrollment.sequence_id = e.sequence_id ∧
    (executeStep now today gw e seq p rl).enrollment.prospect_id = e.prospect_id ∧
    (executeStep now today gw e seq p rl).enrollment.created_at = e.created_at ∧
    (executeStep now today gw e seq p rl).enrollment.updated_at = now ∧
    (executeStep now today gw e seq p rl).rateLimits = rl ∧
    (executeStep now today gw e seq p rl).calls = [] ∧
    (e.status = .pending →
      dueStatus (executeStep now today gw e seq p rl).enrollment.status = true) := by
  refine ⟨?_, ?_, ?_, ?_, ?_, ?_, ?_, ?_, ?_, ?_, ?_, ?_, ?_⟩ <;>
    simp [executeStep, hstep, htype, updateEnrollment]
  intro h
  rw [h]
  rfl

/-- Witness for C10: the concrete delay step advances `enr1` to step 1 while
keeping its `pending` status. -/
theorem executeStep_delay_frame_witness :
    (executeStep 99 0 gwOk enr1 delaySeq adaProspect []).enrollment.current_step = 1 ∧
    (executeStep 99 0 gwOk enr1 delaySeq adaProspect []).enrollment.status = enr1.status :=
  ⟨(executeStep_delay_frame 99 0 gwOk enr1 delaySeq adaProspect [] _ rfl rfl).1,
   (executeStep_delay_frame 99 0 gwOk enr1 delaySeq adaProspect [] _ rfl rfl).2.2.1⟩

/-! ## C4 — `wait_for_acceptance` -/

/-- C4: on a `wait_for_acceptance` step — if the prospect's connection flag is
true, the executor advances the step index by one, sets status `connected`,
stamps `last_action_at`, and returns success with no gateway call; otherwise,
if the time elapsed since the enrollment's creation exceeds `timeout_days`
(default 7 when falsy) in milliseconds, it sets the terminal status `failed`
with an explanatory error message and returns failure (and `failed` is outside
the due-selection status set); otherwise it sets `next_action_at` to now plus
8 hours without changing the step index or the status, and returns success,
again with no gateway call. -/
theorem executeStep_wait_for_acceptance (now today : Nat) (gw : Gateway)
    (e : SequenceEnrollment) (seq : Sequence) (p : Prospect)
    (rl : List RateLimitRow) (step : SequenceStep)
    (hstep : seq.steps[e.current_step]? = some step)
    (htype : step.type = "wait_for_acceptance") :
    (p.is_connection = true →
      (executeStep now today gw e seq p rl).result.success = true ∧
      (executeStep now today gw e seq p rl).calls = [] ∧
      (executeStep now today gw e seq p rl).enrollment.current_step = e.current_step + 1 ∧
      (executeStep now today gw e seq p rl).enrollment.status = .connected ∧
      (executeStep now today gw e seq p rl).enrollment.last_action_at = some now) ∧
    (p.is_connection = false →
      now - e.created_at >
        (if jsTruthyNat step.timeout_days then step.timeout_days.getD 0 else 7) * msPerDay →
      (executeStep now today gw e seq p rl).result.success = false ∧
      (executeStep now today gw e seq p rl).calls = [] ∧
      (executeStep now today gw e seq p rl).enrollment.status = .failed ∧
      (executeStep now today gw e seq p rl).enrollment.error_message
        = some "Timeout waiting for acceptance" ∧
      (executeStep now today gw e seq p rl).enrollment.current_step = e.current_step ∧
      dueStatus (executeStep now today gw e seq p rl).enrollment.status = false) ∧
    (p.is_connection = false →
      ¬(now - e.created_at >
        (if jsTruthyNat step.timeout_days then step.timeout_days.getD 0 else 7) * msPerDay) →
      (executeStep now today gw e seq p rl).result.success = true ∧
      (executeStep now today gw e seq p rl).calls = [] ∧
      (executeStep now today gw e seq p rl).enrollment.next_action_at
        = some (now + msEightHours) ∧
      (executeStep now today gw e seq p rl).enrollment.current_step = e.current_step ∧
      (executeStep now today gw e seq p rl).enrollment.status = e.status) := by
  refine ⟨fun hc => ?_, fun hc ht => ?_, fun hc ht => ?_⟩
  · refine ⟨?_, ?_, ?_, ?_, ?_⟩ <;> simp [executeStep, hstep, htype, hc, updateEnrollment]
  · refine ⟨?_, ?_, ?_, ?_, ?_, ?_⟩ <;>
      simp [executeStep, hstep, htype, hc, ht, updateEnrollment, dueStatus_failed,
        -mul_ite, -ite_mul]
  · refine ⟨?_, ?_, ?_, ?_, ?_⟩ <;>
      simp [executeStep, hstep, htype, hc, ht, updateEnrollment, -mul_ite, -ite_mul]

/-- Witness for C4: an already-connected prospect advances to `connected`, and
a never-connected prospect far past the default 7-day timeout fails. -/
theorem executeStep_wait_for_acceptance_witness :
    (executeStep 99 0 gwOk enr1 waitSeq connectedProspect []).enrollment.status
      = .connected ∧
    (executeStep 1000000000 0 gwOk enr1 waitSeq adaProspect []).enrollment.status
      = .failed :=
  ⟨((executeStep_wait_for_acceptance 99 0 gwOk enr1 waitSeq connectedProspect []
      _ rfl rfl).1 rfl).2.2.2.1,
   (((executeStep_wait_for_acceptance 1000000000 0 gwOk enr1 waitSeq adaProspect []
      _ rfl rfl).2.1) rfl (by decide)).2.2.1⟩

/-! ## C6 — quota denial makes no mutation -/

/-- An exhausted invitation counter for date 0. -/
def rlInvitationFull : List RateLimitRow :=
  [{ action_type := "invitation", date := 0, count := 40 }]

/-- C6: on a quota-gated step (`visit_profile`, `send_invitation`,
`send_message`, `send_followup`), when the quota check denies the action the
executor returns a failure carrying the quota reason and the outcome is
*exactly* the failure result with the enrollment row and quota table unchanged
and no gateway call and no log entry — so the enrollment (in particular its
step index, status and `next_action_at`) is untouched and remains due for the
next cycle. -/
theorem executeStep_quota_denied (now today : Nat) (gw : Gateway)
    (e : SequenceEnrollment) (seq : Sequence) (p : Prospect)
    (rl : List RateLimitRow) (step : SequenceStep)
    (hstep : seq.steps[e.current_step]? = some step) :
    (step.type = "visit_profile" →
      (checkRateLimit rl today .profile_view).allowed = false →
      executeStep now today gw e seq p rl =
        { result := { success := false, action := "visit_profile",
                      error := (checkRateLimit rl today .profile_view).message },
          enrollment := e, rateLimits := rl }) ∧
    (step.type = "send_invitation" →
      (checkRateLimit rl today .invitation).allowed = false →
      executeStep now today gw e seq p rl =
        { result := { success := false, action := "send_invitation",
                      error := (checkRateLimit rl today .invitation).message },
          enrollment := e, rateLimits := rl }) ∧
    ((step.type = "send_message" ∨ step.type = "send_followup") →
      (checkRateLimit rl today .message).allowed = false →
      executeStep now today gw e seq p rl =
        { result := { success := false, action := step.type,
                      error := (checkRateLimit rl today .message).message },
          enrollment := e, rateLimits := rl }) := by
  refine ⟨fun ht ha => ?_, fun ht ha => ?_, fun ht ha => ?_⟩
  · simp [executeStep, hstep, ht, ha]
  · simp [executeStep, hstep, ht, ha]
  · rcases ht with ht | ht <;> simp [executeStep, hstep, ht, ha]

/-- Witness for C6: with the invitation counter at its daily ceiling, the
executor refuses the invitation step and leaves everything unchanged. -/
theorem executeStep_quota_denied_witness :
    executeStep 99 0 gwOk enr1 invitationSeq adaProspect rlInvitationFull =
      { result := { success := false, action := "send_invitation",
                    error := (checkRateLimit rlInvitationFull 0 .invitation).message },
        enrollment := enr1, rateLimits := rlInvitationFull } :=
  (executeStep_quota_denied 99 0 gwOk enr1 invitationSeq adaProspect rlInvitationFull
    _ rfl).2.1 rfl (by decide)

/-! ## C1 — when the quota counter is incremented -/

/-- Counterexample to C1 as stated: with a gateway whose invite call returns a
*reported failure* (`success: false`), the runner still increments the
invitation counter (`db.incrementRateLimit('invitation')` runs unconditionally
once the awaited call resolves), so the counter is incremented although the
gateway call reported failure. -/
theorem invitation_quota_counted_on_reported_failure :
    (executeStep 99 0 gwInvitationRejected enr1 invitationSeq adaProspect []).result.success
      = false ∧
    (executeStep 99 0 gwInvitationRejected enr1 invitationSeq adaProspect []).rateLimits
      = [{ action_type := "invitation", date := 0, count := 1 }] := by decide

/-- C1 (amended): on a gateway-touching step, the quota counter for the step's
action type is incremented exactly when the gateway call *returns* (does not
throw) — for `send_invitation`, `send_message` and `send_followup` this
happens regardless of the reported success flag — and is never incremented
when the call throws, when the quota check denies the action, or when the
not-connected precondition fails before the message call. -/
theorem executeStep_quota_increment (now today : Nat) (gw : Gateway)
    (e : SequenceEnrollment) (seq : Sequence) (p : Prospect)
    (rl : List RateLimitRow) (step : SequenceStep)
    (hstep : seq.steps[e.current_step]? = some step) :
    (step.type = "visit_profile" →
      ((checkRateLimit rl today .profile_view).allowed = true →
        (gw.getProfile = .ok () →
          (executeStep now today gw e seq p rl).rateLimits
            = incrementRateLimit rl "profile_view" today) ∧
        (∀ m, gw.getProfile = .error m →
          (executeStep now today gw e seq p rl).rateLimits = rl)) ∧
      ((checkRateLimit rl today .profile_view).allowed = false →
        (executeStep now today gw e seq p rl).rateLimits = rl)) ∧
    (step.type = "send_invitation" →
      ((checkRateLimit rl today .invitation).allowed = true →
        (∀ r, gw.sendInvitation = .ok r →
          (executeStep now today gw e seq p rl).rateLimits
            = incrementRateLimit rl "invitation" today) ∧
        (∀ m, gw.sendInvitation = .error m →
          (executeStep now today gw e seq p rl).rateLimits = rl)) ∧
      ((checkRateLimit rl today .invitation).allowed = false →
        (executeStep now today gw e seq p rl).rateLimits = rl)) ∧
    ((step.type = "send_message" ∨ step.type = "send_followup") →
      ((checkRateLimit rl today .message).allowed = true → p.is_connection = true →
        (∀ r, gw.sendMessage = .ok r →
          (executeStep now today gw e seq p rl).rateLimits
            = incrementRateLimit rl "message" today) ∧
        (∀ m, gw.sendMessage = .error m →
          (executeStep now today gw e seq p rl).rateLimits = rl)) ∧
      ((checkRateLimit rl today .message).allowed = true → p.is_connection = false →
        (executeStep now today gw e seq p rl).rateLimits = rl ∧
        (executeStep now today gw e seq p rl).calls = []) ∧
      ((checkRateLimit rl today .message).allowed = false →
        (executeStep now today gw e seq p rl).rateLimits = rl)) := by
  refine ⟨fun ht => ⟨fun ha => ⟨fun hg => ?_, fun m hg => ?_⟩, fun ha => ?_⟩,
          fun ht => ⟨fun ha => ⟨fun r hg => ?_, fun m hg => ?_⟩, fun ha => ?_⟩,
          fun ht => ⟨fun ha hc => ⟨fun r hg => ?_, fun m hg => ?_⟩,
                     fun ha hc => ?_, fun ha => ?_⟩⟩
  · simp [executeStep, hstep, ht, ha, hg]
  · simp [executeStep, hstep, ht, ha, hg]
  · simp [executeStep, hstep, ht, ha]
  · simp [executeStep, hstep, ht, ha, hg]
  · simp [executeStep, hstep, ht, ha, hg]
  · simp [executeStep, hstep, ht, ha]
  · rcases ht with ht | ht <;> simp [executeStep, hstep, ht, ha, hc, hg]
  · rcases ht with ht | ht <;> simp [executeStep, hstep, ht, ha, hc, hg]
  · rcases ht with ht | ht <;> simp [executeStep, hstep, ht, ha, hc]
  · rcases ht with ht | ht <;> simp [executeStep, hstep, ht, ha]

/-- Witness for C1: the invitation counter is incremented although the
gateway reported failure. -/
theorem executeStep_quota_increment_witness :
    (executeStep 99 0 gwInvitationRejected enr1 invitationSeq adaProspect []).rateLimits
      = incrementRateLimit [] "invitation" 0 :=
  (((executeStep_quota_increment 99 0 gwInvitationRejected enr1 invitationSeq
      adaProspect [] _ rfl).2.1 rfl).1 (by decide)).1
    { success := false, error := some "rejected" } rfl

/-! ## C3 — advancement after a successful message send -/

/-- Counterexample to C3 as stated: executing the final `send_message` step of
`messageSeq` on `enr1` (whose `next_action_at` is `some 5`) with a successful
gateway send marks the enrollment `completed`, but `next_action_at` is **not**
cleared: the update passes `undefined`, which `updateEnrollment` skips, so the
old scheduled time `some 5` persists. -/
theorem completed_enrollment_keeps_next_action_at :
    (executeStep 99 0 gwOk enr1 messageSeq connectedProspect []).enrollment.status
      = .completed ∧
    (executeStep 99 0 gwOk enr1 messageSeq connectedProspect []).enrollment.next_action_at
      = some 5 ∧
    enr1.next_action_at = some 5 := by decide

/-- C3 (amended): on a successful `send_message`/`send_followup` gateway call,
the step index advances by one; if the new index is at or beyond the campaign's
step count the status becomes `completed` and `next_action_at` is left
unchanged (the update omits the field — the enrollment is nonetheless never
selected again, since `completed` is outside the due-selection status set);
otherwise the status becomes `in_progress` and `next_action_at` is set to now
plus `delay_days` when `delay_days` is truthy, and left unchanged otherwise. -/
theorem executeStep_message_advance (now today : Nat) (gw : Gateway)
    (e : SequenceEnrollment) (seq : Sequence) (p : Prospect)
    (rl : List RateLimitRow) (step : SequenceStep)
    (hstep : seq.steps[e.current_step]? = some step)
    (htype : step.type = "send_message" ∨ step.type = "send_followup")
    (hallow : (checkRateLimit rl today .message).allowed = true)
    (hconn : p.is_connection = true)
    (r : SendMessageResponse) (hr : gw.sendMessage = .ok r)
    (hs : r.success = true) :
    (seq.steps.length ≤ e.current_step + 1 →
      (executeStep now today gw e seq p rl).enrollment.status = .completed ∧
      (executeStep now today gw e seq p rl).enrollment.next_action_at
        = e.next_action_at ∧
      (executeStep now today gw e seq p rl).enrollment.current_step
        = e.current_step + 1 ∧
      (∀ t, dueForAction t (executeStep now today gw e seq p rl).enrollment = false)) ∧
    (e.current_step + 1 < seq.steps.length →
      (executeStep now today gw e seq p rl).enrollment.status = .in_progress ∧
      (executeStep now today gw e seq p rl).enrollment.current_step
        = e.current_step + 1 ∧
      (executeStep now today gw e seq p rl).enrollment.next_action_at
        = (if jsTruthyNat step.delay_days then
            some (now + (step.delay_days.getD 0) * msPerDay)
          else e.next_action_at)) := by
  rcases htype with ht | ht
  · constructor
    · intro hcomp
      refine ⟨?_, ?_, ?_, ?_⟩ <;>
        simp [executeStep, hstep, ht, hallow, hconn, hr, hs, hcomp,
          updateEnrollment, dueForAction, dueStatus_completed]
    · intro hlt
      have hncomp : ¬(seq.steps.length ≤ e.current_step + 1) := Nat.not_le.mpr hlt
      refine ⟨?_, ?_, ?_⟩ <;>
        (cases hd : jsTruthyNat step.delay_days <;>
          simp [executeStep, hstep, ht, hallow, hconn, hr, hs, hncomp, hd,
            updateEnrollment])
  · constructor
    · intro hcomp
      refine ⟨?_, ?_, ?_, ?_⟩ <;>
        simp [executeStep, hstep, ht, hallow, hconn, hr, hs, hcomp,
          updateEnrollment, dueForAction, dueStatus_completed]
    · intro hlt
      have hncomp : ¬(seq.steps.length ≤ e.current_step + 1) := Nat.not_le.mpr hlt
      refine ⟨?_, ?_, ?_⟩ <;>
        (cases hd : jsTruthyNat step.delay_days <;>
          simp [executeStep, hstep, ht, hallow, hconn, hr, hs, hncomp, hd,
            updateEnrollment])

/-- Witness for C3: the concrete final message step completes the enrollment
and leaves its old `next_action_at` in place. -/
theorem executeStep_message_advance_witness :
    (executeStep 99 0 gwOk enr1 messageSeq connectedProspect []).enrollment.status
      = .completed ∧
    (executeStep 99 0 gwOk enr1 messageSeq connectedProspect []).enrollment.next_action_at
      = enr1.next_action_at :=
  ⟨((executeStep_message_advance 99 0 gwOk enr1 messageSeq connectedProspect []
      _ rfl (Or.inl rfl) (by decide) rfl { success := true } rfl rfl).1
      (by decide)).1,
   ((executeStep_message_advance 99 0 gwOk enr1 messageSeq connectedProspect []
      _ rfl (Or.inl rfl) (by decide) rfl { success := true } rfl rfl).1
      (by decide)).2.1⟩

/-! ## C9 — reconciler behaviour on a failed gateway call -/

/-- Counterexample to C9 as stated: the tool-facing reconciler variant
`handleCheckNewConnections` does **not** report zero new connections when the
relation listing throws — it re-throws the wrapped error to its caller, the
tool dispatcher (the claim covers both cited reconciler variants). -/
theorem tool_reconciler_propagates_gateway_error :
    handleCheckNewConnections gwRelationsDown 0 emptyStore
      = (Except.error "Failed to check connections: boom", emptyStore) := rfl

/-- C9 (amended): when the gateway's list-connections call fails, neither
reconciler variant performs any store mutation; the runner's
`checkNewConnections` catches the failure and reports zero new connections
without propagating, while the tool-facing `handleCheckNewConnections` also
mutates nothing but catches and re-throws the error wrapped as
`Failed to check connections: ...` instead of returning zero. -/
theorem reconciler_gateway_failure (gw : Gateway) (now : Nat) (st : Store)
    (err : String) (h : gw.getRelations = Except.error err) :
    checkNewConnections gw now st = (0, st) ∧
    handleCheckNewConnections gw now st
      = (Except.error ("Failed to check connections: " ++ err), st) := by
  constructor <;> simp [checkNewConnections, handleCheckNewConnections, h]

/-- Witness for C9: the runner's reconciler reports zero and keeps the store
when the gateway is down. -/
theorem reconciler_gateway_failure_witness :
    checkNewConnections gwRelationsDown 0 emptyStore = (0, emptyStore) :=
  (reconciler_gateway_failure gwRelationsDown 0 emptyStore "boom" rfl).1

/-! ## C5 — due-enrollment selection -/

/-- Counterexample to C5 as stated: with `maxActions = 0` the selection is not
capped at 0 — the source guards the SQL `LIMIT` clause with the truthiness
check `if (filters.limit)`, so a zero limit applies no cap at all and the
single due enrollment is returned. -/
theorem zero_limit_applies_no_cap :
    getEnrollments [enr1] 100 { due_for_action := true, limit := some 0 } = [enr1] ∧
    (getEnrollments [enr1] 100 { due_for_action := true, limit := some 0 }).length = 1 := by
  constructor <;> rfl

/-- C5 (amended): the due-selection returns exactly the enrollments whose
`next_action_at` is at or before now and whose status is in
{pending, in\_progress, connected} — an enrollment in `completed`, `failed`,
`paused` or `replied` is never selected — ordered by `next_action_at`
ascending; it is capped at `maxActions` when `maxActions` is nonzero (a zero
limit is falsy and applies no cap), and a due enrollment is dropped only when
the nonzero cap is saturated. -/
theorem getEnrollments_due_selection (db : List SequenceEnrollment)
    (now : Nat) (limit : Nat) :
    (∀ e ∈ getEnrollments db now { due_for_action := true, limit := some limit },
      dueForAction now e = true ∧ e.status ≠ .completed ∧ e.status ≠ .failed ∧
      e.status ≠ .paused ∧ e.status ≠ .replied) ∧
    List.Sorted (fun a b => nextActionLe a b = true)
      (getEnrollments db now { due_for_action := true, limit := some limit }) ∧
    (limit ≠ 0 →
      (getEnrollments db now { due_for_action := true, limit := some limit }).length
        ≤ limit) ∧
    (∀ e ∈ db, dueForAction now e = true →
      e ∈ getEnrollments db now { due_for_action := true, limit := some limit } ∨
        (limit ≠ 0 ∧
          limit ≤ (getEnrollments db now
            { due_for_action := true, limit := some limit }).length)) := by
  haveI instTot : IsTotal SequenceEnrollment (fun a b => nextActionLe a b = true) :=
    ⟨nextActionLe_total⟩
  haveI instTrans : IsTrans SequenceEnrollment (fun a b => nextActionLe a b = true) :=
    ⟨nextActionLe_trans⟩
  have hres : getEnrollments db now { due_for_action := true, limit := some limit }
      = (if limit != 0 then
           (List.insertionSort (fun a b => nextActionLe a b = true)
             (db.filter (fun e => dueForAction now e))).take limit
         else
           List.insertionSort (fun a b => nextActionLe a b = true)
             (db.filter (fun e => dueForAction now e))) := by
    simp [getEnrollments, jsTruthyStr]
  have hsort : List.Sorted (fun a b => nextActionLe a b = true)
      (List.insertionSort (fun a b => nextActionLe a b = true)
        (db.filter (fun e => dueForAction now e))) :=
    List.sorted_insertionSort _ _
  refine ⟨?_, ?_, ?_, ?_⟩
  · intro e he
    rw [hres] at he
    have hmem : e ∈ List.insertionSort (fun a b => nextActionLe a b = true)
        (db.filter (fun e => dueForAction now e)) := by
      by_cases hl : (limit != 0) = true
      · rw [if_pos hl] at he; exact List.take_subset _ _ he
      · rw [if_neg (by simpa using hl)] at he; exact he
    have hdue : dueForAction now e = true :=
      (List.mem_filter.mp ((List.mem_insertionSort _).mp hmem)).2
    have hst : dueStatus e.status = true := by
      have h2 := hdue
      unfold dueForAction at h2
      exact (Bool.and_eq_true_iff.mp h2).2
    exact ⟨hdue, dueStatus_elim _ hst⟩
  · rw [hres]
    by_cases hl : (limit != 0) = true
    · rw [if_pos hl]; exact hsort.sublist (List.take_sublist _ _)
    · rw [if_neg (by simpa using hl)]; exact hsort
  · intro hl
    rw [hres, if_pos (by simpa using hl), List.length_take]
    exact min_le_left _ _
  · intro e he hdue
    have hmem : e ∈ List.insertionSort (fun a b => nextActionLe a b = true)
        (db.filter (fun e => dueForAction now e)) :=
      (List.mem_insertionSort _).mpr (List.mem_filter.mpr ⟨he, hdue⟩)
    by_cases hl : limit = 0
    · left
      rw [hres, if_neg (by simp [hl])]
      exact hmem
    · by_cases hlen : (List.insertionSort (fun a b => nextActionLe a b = true)
          (db.filter (fun e => dueForAction now e))).length ≤ limit
      · left
        rw [hres, if_pos (by simpa using hl), List.take_of_length_le hlen]
        exact hmem
      · right
        refine ⟨hl, ?_⟩
        rw [hres, if_pos (by simpa using hl), List.length_take]
        omega

/-- Witness for C5: with one due enrollment and a cap of one, the selection
has at most one element. -/
theorem getEnrollments_due_selection_witness :
    (getEnrollments [enr1] 100 { due_for_action := true, limit := some 1 }).length ≤ 1 :=
  (getEnrollments_due_selection [enr1] 100 1).2.2.1 (by decide)

/-! ## C2 — the weekly quota window -/

/-- Unfolding a counter lookup over a cons cell. -/
theorem getRateLimitCount_cons (r : RateLimitRow) (tl : List RateLimitRow)
    (a : String) (d : Nat) :
    getRateLimitCount (r :: tl) a d
      = if r.action_type == a && r.date == d then r.count
        else getRateLimitCount tl a d := by
  unfold getRateLimitCount
  cases h : (r.action_type == a && r.date == d) <;> simp [List.find?, h]

/-- A lookup misses when no row carries the requested key. -/
theorem getRateLimitCount_eq_zero (tl : List RateLimitRow) (a : String) (d : Nat)
    (h : ∀ s ∈ tl, ¬(s.action_type = a ∧ s.date = d)) :
    getRateLimitCount tl a d = 0 := by
  unfold getRateLimitCount
  have hnone : tl.find? (fun r => r.action_type == a && r.date == d) = none := by
    rw [List.find?_eq_none]
    intro x hx
    simp only [Bool.and_eq_true, beq_iff_eq, not_and]
    intro h1 h2
    exact h x hx ⟨h1, h2⟩
  rw [hnone]

/-- The weekly counter of the source sums the counters of the trailing **8**
calendar dates (today and the 7 preceding dates), provided no row is dated in
the future and the `(action_type, date)` key is unique, as the table's unique
index guarantees. -/
theorem getWeekly_eq_trailing8 (today : Nat) (h7 : 7 ≤ today) :
    ∀ rl : List RateLimitRow, (∀ r ∈ rl, r.date ≤ today) →
      rl.Pairwise (fun r s => ¬(r.action_type = s.action_type ∧ r.date = s.date)) →
      getWeeklyRateLimitCount rl "invitation" today
        = (Finset.range 8).sum
            (fun i => getRateLimitCount rl "invitation" (today - i)) := by
  intro rl
  induction rl with
  | nil => intro _ _; simp [getWeeklyRateLimitCount, getRateLimitCount]
  | cons r tl ih =>
    intro hdates huniq
    have hdr : r.date ≤ today := hdates r (List.mem_cons_self _ _)
    have hdtl : ∀ s ∈ tl, s.date ≤ today := fun s hs =>
      hdates s (List.mem_cons_of_mem _ hs)
    obtain ⟨hr, htl⟩ := List.pairwise_cons.mp huniq
    have ihtl := ih hdtl htl
    by_cases hcond : r.action_type = "invitation" ∧ today ≤ r.date + 7
    · have hLHS : getWeeklyRateLimitCount (r :: tl) "invitation" today
          = r.count + getWeeklyRateLimitCount tl "invitation" today := by
        simp [getWeeklyRateLimitCount, List.filter_cons, hcond.1, hcond.2]
      have hi0 : today - (today - r.date) = r.date := Nat.sub_sub_self hdr
      have hi0lt : today - r.date < 8 := by omega
      have hzero : getRateLimitCount tl "invitation" r.date = 0 := by
        apply getRateLimitCount_eq_zero
        intro s hs
        rintro ⟨h1, h2⟩
        exact hr s hs ⟨hcond.1.trans h1.symm, h2.symm⟩
      have hpoint : ∀ i ∈ Finset.range 8,
          getRateLimitCount (r :: tl) "invitation" (today - i)
            = (if i = today - r.date then r.count else 0)
              + getRateLimitCount tl "invitation" (today - i) := by
        intro i hi
        have hi8 : i < 8 := Finset.mem_range.mp hi
        rw [getRateLimitCount_cons]
        by_cases hieq : i = today - r.date
        · subst hieq
          rw [hi0]
          simp [hcond.1, hzero]
        · have hne : r.date ≠ today - i := by omega
          have hbeq : (r.date == today - i) = false := by simpa using hne
          simp [hbeq, hieq]
      calc getWeeklyRateLimitCount (r :: tl) "invitation" today
          = r.count + getWeeklyRateLimitCount tl "invitation" today := hLHS
        _ = r.count + (Finset.range 8).sum
              (fun i => getRateLimitCount tl "invitation" (today - i)) := by rw [ihtl]
        _ = (Finset.range 8).sum
              (fun i => getRateLimitCount (r :: tl) "invitation" (today - i)) := by
            rw [Finset.sum_congr rfl hpoint, Finset.sum_add_distrib,
              Finset.sum_ite_eq' (Finset.range 8) (today - r.date)
                (fun _ => r.count)]
            simp [Finset.mem_range, hi0lt]
    · have hfilt : (r.action_type == "invitation" && decide (today ≤ r.date + 7))
          = false := by
        rcases not_and_or.mp hcond with h | h
        · simp [h]
        · simp [h]
      have hLHS : getWeeklyRateLimitCount (r :: tl) "invitation" today
          = getWeeklyRateLimitCount tl "invitation" today := by
        simp [getWeeklyRateLimitCount, List.filter_cons, hfilt]
      have hpoint : ∀ i ∈ Finset.range 8,
          getRateLimitCount (r :: tl) "invitation" (today - i)
            = getRateLimitCount tl "invitation" (today - i) := by
        intro i hi
        have hi8 : i < 8 := Finset.mem_range.mp hi
        rw [getRateLimitCount_cons]
        rcases not_and_or.mp hcond with h | h
        · have hbeq : (r.action_type == "invitation") = false := by simpa using h
          simp [hbeq]
        · have hne : r.date ≠ today - i := by omega
          have hbeq : (r.date == today - i) = false := by simpa using hne
          simp [hbeq]
      rw [hLHS, ihtl]
      exact (Finset.sum_congr rfl hpoint).symm

/-- Counterexample to C2 as stated: a single invitation counter dated exactly
7 days before today (the 8th calendar date counting back) is included by the
source's window (`date >= date('now','-7 days')`), so the weekly value is 5,
while the sum over exactly the trailing 7 dates including today is 0. -/
theorem weekly_window_includes_eighth_day :
    getWeeklyRateLimitCount
      [{ action_type := "invitation", date := 3, count := 5 }] "invitation" 10 = 5 ∧
    (Finset.range 7).sum
      (fun i => getRateLimitCount
        [{ action_type := "invitation", date := 3, count := 5 }] "invitation" (10 - i))
      = 0 := by
  constructor <;> decide

/-- C2 (amended): for the invitation action type the weekly quota value used
by `checkRateLimit` equals the sum of the trailing **8** daily counters
including today's (today and the 7 preceding calendar dates — the SQL bound is
inclusive), assuming no future-dated rows and the unique `(action_type, date)`
index; the weekly ceiling is evaluated only after the daily ceiling check
passes, the denial reason distinguishes daily from weekly exhaustion, and for
every other action type the check consults the daily ceiling alone. -/
theorem checkRateLimit_weekly_spec (rl : List RateLimitRow) (today : Nat)
    (h7 : 7 ≤ today)
    (hdates : ∀ r ∈ rl, r.date ≤ today)
    (huniq : rl.Pairwise (fun r s => ¬(r.action_type = s.action_type ∧ r.date = s.date))) :
    getWeeklyRateLimitCount rl "invitation" today
      = (Finset.range 8).sum (fun i => getRateLimitCount rl "invitation" (today - i)) ∧
    (40 ≤ getRateLimitCount rl "invitation" today →
      checkRateLimit rl today .invitation
        = { allowed := false, current := getRateLimitCount rl "invitation" today,
            limit := 40,
            message := some ("Daily limit reached for " ++ ActionType.invitation.key
              ++ ": " ++ toString (getRateLimitCount rl "invitation" today)
              ++ "/" ++ toString (dailyLimit .invitation)) }) ∧
    (getRateLimitCount rl "invitation" today < 40 →
      180 ≤ getWeeklyRateLimitCount rl "invitation" today →
      checkRateLimit rl today .invitation
        = { allowed := false, current := getWeeklyRateLimitCount rl "invitation" today,
            limit := 180,
            message := some ("Weekly limit reached for " ++ ActionType.invitation.key
              ++ ": " ++ toString (getWeeklyRateLimitCount rl "invitation" today)
              ++ "/" ++ toString (180 : Nat)) }) ∧
    (getRateLimitCount rl "invitation" today < 40 →
      getWeeklyRateLimitCount rl "invitation" today < 180 →
      checkRateLimit rl today .invitation
        = { allowed := true, current := getRateLimitCount rl "invitation" today,
            limit := 40 }) ∧
    (∀ a : ActionType, a ≠ .invitation →
      dailyLimit a ≤ getRateLimitCount rl a.key today →
      (checkRateLimit rl today a).allowed = false) ∧
    (∀ a : ActionType, a ≠ .invitation →
      getRateLimitCount rl a.key today < dailyLimit a →
      (checkRateLimit rl today a).allowed = true) := by
  refine ⟨getWeekly_eq_trailing8 today h7 rl hdates huniq, ?_, ?_, ?_, ?_, ?_⟩
  · intro hd
    simp [checkRateLimit, ActionType.key, dailyLimit, hd]
  · intro hd hw
    simp [checkRateLimit, ActionType.key, dailyLimit, weeklyLimit,
      Nat.not_le.mpr hd, hw]
  · intro hd hw
    simp [checkRateLimit, ActionType.key, dailyLimit, weeklyLimit,
      Nat.not_le.mpr hd, Nat.not_le.mpr hw]
  · intro a ha hd
    cases a
    case invitation => exact absurd rfl ha
    all_goals
      simp only [dailyLimit] at hd
      simp [checkRateLimit, dailyLimit, weeklyLimit, hd]
  · intro a ha hd
    cases a
    case invitation => exact absurd rfl ha
    all_goals
      simp only [dailyLimit] at hd
      simp [checkRateLimit, dailyLimit, weeklyLimit, Nat.not_le.mpr hd]

/-- A rate-limit table mixing both invitation dates inside the window and a
row of another action type. -/
def rlWeeklyMix : List RateLimitRow :=
  [{ action_type := "invitation", date := 10, count := 3 },
   { action_type := "invitation", date := 4, count := 2 },
   { action_type := "message", date := 9, count := 9 }]

/-- Witness for C2: on a concrete table the weekly value equals the trailing
8-date sum. -/
theorem checkRateLimit_weekly_spec_witness :
    getWeeklyRateLimitCount rlWeeklyMix "invitation" 10
      = (Finset.range 8).sum
          (fun i => getRateLimitCount rlWeeklyMix "invitation" (10 - i)) :=
  (checkRateLimit_weekly_spec rlWeeklyMix 10 (by decide) (by decide) (by decide)).1

end Outreach
